import Mathlib

/-!
# Booking lifecycle and status-transition engine: a verification development

This file gives a shallow embedding of the booking engine of a marketplace
backend (the `Booking` mongoose model together with the booking controller:
`createBooking`, `updateBookingStatus`, `cancelBooking`, `addReview`), and
proves the specified invariants and error-handling properties about it.

The persisted store is modelled as a `List Booking` (the booking collection)
and a `List User` (the user collection).  Controller handlers become
functions returning `Except ApiError (newStore × document)`: an error result
means the handler answered an error response before any `save()` ran, so the
store is unchanged.  The mongoose `pre('save')` hook (booking-number
generation for new documents, status-history push when the status path was
modified) and mongoose schema enum/min/max validation are modelled
explicitly inside the save step, in the order the driver runs them.
JavaScript numbers are modelled as `ℚ`, `Date.now`-style timestamps as `Nat`
milliseconds, and `Math.random()` outputs as rationals in `[0, 1)` supplied
as an explicit stream.
-/

namespace MechanicBD

/-- The status values the booking schema's `enum` permits
(`src/models/booking.model.js`, `status` path). -/
def statusEnum : List String :=
  ["pending", "confirmed", "in_progress", "completed", "cancelled", "disputed"]

/-- The statuses treated as blocking a mechanic's date in the
creation-time conflict check (`createBooking`, `$in` list). -/
def activeStatuses : List String := ["pending", "confirmed", "in_progress"]

/-- One entry of `statusHistory`: `{status, timestamp, note, updatedBy}`. -/
structure HistEntry where
  status : String
  timestamp : Nat
  note : Option String
  updatedBy : Nat
deriving Repr, DecidableEq

/-- The `Booking` document, restricted to the fields the booking engine
reads or writes.  `id` stands for the document's `_id`. -/
structure Booking where
  id : Nat
  bookingNumber : String
  service : Nat
  mechanic : Nat
  customer : Nat
  scheduledDate : Nat
  scheduledTime : String
  status : String
  statusHistory : List HistEntry
  actualStartTime : Option Nat
  actualEndTime : Option Nat
  actualDuration : Option Int
  cancellationReason : Option String
  cancelledBy : Option Nat
  cancelledAt : Option Nat
  customerRating : Option ℚ
  customerReview : Option String
  reviewDate : Option Nat
  basePrice : ℚ
  totalAmount : ℚ
deriving Repr, DecidableEq

/-- A user record, restricted to what the engine consumes and produces:
the role claim and the aggregate review fields written by `addReview`. -/
structure User where
  id : Nat
  role : String
  averageRating : Option ℚ
  totalReviews : Option Nat
deriving Repr, DecidableEq

/-- A catalog service record, restricted to what `createBooking` reads. -/
structure Service where
  id : Nat
  mechanic : Nat
  isActive : Bool
  isAvailable : Bool
  basePrice : ℚ
  estimatedDuration : Option Nat
deriving Repr, DecidableEq

/-- The error taxonomy of the request boundary: 404 / 403 / 400 responses,
carrying the response's `message`. -/
inductive ApiError where
  | notFound (msg : String)
  | forbidden (msg : String)
  | validation (msg : String)
deriving Repr, DecidableEq

/-- Model of `Booking.findById` over the collection. -/
def findBooking (db : List Booking) (bid : Nat) : Option Booking :=
  db.find? (fun b => b.id == bid)

/-- The participant-or-admin authorization check shared by
`updateBookingStatus` and `cancelBooking`. -/
def isParticipantOrAdmin (user : User) (b : Booking) : Bool :=
  user.role == "admin" || b.customer == user.id || b.mechanic == user.id

/-- Mongoose schema validation for the paths the engine touches: the
`status` enum, the `statusHistory.status` enum, and the 1–5 bounds on
`customerRating`. -/
def validateBooking (b : Booking) : Bool :=
  statusEnum.contains b.status
    && b.statusHistory.all (fun e => statusEnum.contains e.status)
    && (match b.customerRating with
        | none => true
        | some r => decide (1 ≤ r) && decide (r ≤ 5))

/-- The history push of the `pre('save')` hook: when the status path was
modified, append `{status, timestamp, updatedBy}` where `updatedBy` is the
booking's customer for `pending` and its mechanic otherwise. -/
def pushHistory (b : Booking) (now : Nat) : Booking :=
  { b with statusHistory := b.statusHistory ++
      [⟨b.status, now, none, if b.status == "pending" then b.customer else b.mechanic⟩] }

/-- Writing a document back into the collection (`save()` on an existing
document replaces the document with its `_id`). -/
def replaceById (db : List Booking) (b : Booking) : List Booking :=
  db.map (fun x => if x.id == b.id then b else x)

/-- The document as the `pre('save')` hook leaves it: the history push runs
exactly when the status path was modified. -/
def savedDoc (b : Booking) (statusModified : Bool) (now : Nat) : Booking :=
  if statusModified then pushHistory b now else b

/-- Model of `save()` on an existing document: run the `pre('save')` history push
when the status path was modified, then schema validation; a validation
failure rejects the save and leaves the store untouched. -/
def saveExisting (db : List Booking) (b : Booking) (statusModified : Bool)
    (now : Nat) : Except ApiError (List Booking × Booking) :=
  if validateBooking (savedDoc b statusModified now) then
    .ok (replaceById db (savedDoc b statusModified now), savedDoc b statusModified now)
  else .error (.validation "Booking validation failed")

/-- The status-transition table of `updateBookingStatus`
(`validTransitions`); `none` models the undefined lookup for a status
outside the table, which makes the handler throw and answer 400. -/
def validTransitionsTable (s : String) : Option (List String) :=
  if s == "pending" then some ["confirmed", "cancelled"]
  else if s == "confirmed" then some ["in_progress", "cancelled"]
  else if s == "in_progress" then some ["completed", "cancelled"]
  else if s == "completed" then some []
  else if s == "cancelled" then some []
  else if s == "disputed" then some ["resolved"]
  else none

/-- Model of `booking.statusHistory[booking.statusHistory.length - 1].note = note`:
set the note of the last entry of the history as it stands now. -/
def setLastNote : List HistEntry → String → List HistEntry
  | [], _ => []
  | [e], n => [{ e with note := some n }]
  | e :: e' :: rest, n => e :: setLastNote (e' :: rest) n

/-- Model of `Math.round` on a (non-negative, in all uses here) rational. -/
def jsRound (x : ℚ) : ℤ := (x + 1/2).floor

/-- The per-target side effects of `updateBookingStatus`: start time on
`in_progress`, end time and duration on `completed`, canceller and time on
`cancelled`. -/
def applyStatusEffects (b : Booking) (target : String) (userId : Nat)
    (now : Nat) : Booking :=
  if target == "in_progress" then { b with actualStartTime := some now }
  else if target == "completed" then
    match b.actualStartTime with
    | some s =>
        { b with actualEndTime := some now,
                 actualDuration := some (jsRound (((now : ℚ) - (s : ℚ)) / 60000)) }
    | none => { b with actualEndTime := some now }
  else if target == "cancelled" then
    { b with cancelledBy := some userId, cancelledAt := some now }
  else b

/-- Model of `updateBookingStatus` (`src/controllers/booking.controller.js`):
find the booking, authorize, check the transition table, set the status,
attach the optional note to the current last history entry, apply the
per-target side effects, and save (which pushes the new history entry and
validates).  Setting a note on an empty history throws in the source
(indexing `[-1]` of an empty array) and is answered as a 400. -/
def updateBookingStatus (db : List Booking) (user : User) (bid : Nat)
    (target : String) (note : Option String) (now : Nat) :
    Except ApiError (List Booking × Booking) :=
  match findBooking db bid with
  | none => .error (.notFound "Booking not found")
  | some booking =>
    if !(isParticipantOrAdmin user booking) then
      .error (.forbidden "You cannot update this booking")
    else
      match validTransitionsTable booking.status with
      | none => .error (.validation "Error updating booking status")
      | some allowed =>
        if !(allowed.contains target) then
          .error (.validation
            ("Invalid status transition from " ++ booking.status ++ " to " ++ target))
        else
          match note with
          | some n =>
            if booking.statusHistory.isEmpty then
              .error (.validation "Error updating booking status")
            else
              saveExisting db
                (applyStatusEffects
                  { booking with status := target,
                                 statusHistory := setLastNote booking.statusHistory n }
                  target user.id now)
                true now
          | none =>
            saveExisting db
              (applyStatusEffects { booking with status := target } target user.id now)
              true now

/-- Model of `cancelBooking`: the non-cancellable-state check runs before the
authorization check; on success the status is forced to `cancelled` and
the cancellation fields recorded, then saved. -/
def cancelBooking (db : List Booking) (user : User) (bid : Nat)
    (reason : Option String) (now : Nat) :
    Except ApiError (List Booking × Booking) :=
  match findBooking db bid with
  | none => .error (.notFound "Booking not found")
  | some booking =>
    if booking.status == "completed" || booking.status == "cancelled" then
      .error (.validation "Booking cannot be cancelled")
    else if !(isParticipantOrAdmin user booking) then
      .error (.forbidden "You cannot cancel this booking")
    else
      saveExisting db
        { booking with status := "cancelled", cancellationReason := reason,
                       cancelledBy := some user.id, cancelledAt := some now }
        true now

/-- JavaScript truthiness of the stored `customerRating`
(`if (booking.customerRating)`): `undefined` and `0` are falsy. -/
def truthyRating : Option ℚ → Bool
  | none => false
  | some r => !(r == 0)

/-- Model of `Math.round(x * 10) / 10`: round to one decimal place. -/
def round1 (x : ℚ) : ℚ := (jsRound (x * 10) : ℚ) / 10

/-- The mechanic's rated bookings:
`Booking.find({mechanic, customerRating: {$exists: true}})`. -/
def ratedOf (db : List Booking) (mech : Nat) : List Booking :=
  db.filter (fun x => x.mechanic == mech && x.customerRating.isSome)

/-- Model of `User.findByIdAndUpdate` writing the aggregate fields:
update the first user with the given id, if any. -/
def findByIdAndUpdateRating : List User → Nat → ℚ → Nat → List User
  | [], _, _, _ => []
  | u :: rest, uid, avg, n =>
    if u.id == uid then
      { u with averageRating := some avg, totalReviews := some n } :: rest
    else u :: findByIdAndUpdateRating rest uid avg n

/-- The booking with the review fields stored, as `addReview` writes them
before saving. -/
def reviewedBooking (b : Booking) (rating : ℚ) (review : Option String)
    (now : Nat) : Booking :=
  { b with customerRating := some rating, customerReview := review,
           reviewDate := some now }

/-- Model of `totalRating / mechanicBookings.length`: the arithmetic mean of
`customerRating` over the mechanic's rated bookings (absent ratings
contribute `getD 0`, but `ratedOf` keeps only present ones). -/
def mechanicAverage (db : List Booking) (mech : Nat) : ℚ :=
  ((ratedOf db mech).map (fun x => x.customerRating.getD 0)).sum
    / ((ratedOf db mech).length : ℚ)

/-- Model of `addReview`: customer-only, completed-only, once-only; then store the
rating/review/date on the booking, save it (status unmodified, so no
history push), and synchronously recompute the mechanic's aggregate
`averageRating` (mean over all rated bookings, rounded to one decimal)
and `totalReviews` onto the user record. -/
def addReview (db : List Booking) (users : List User) (user : User)
    (bid : Nat) (rating : ℚ) (review : Option String) (now : Nat) :
    Except ApiError (List Booking × List User) :=
  match findBooking db bid with
  | none => .error (.notFound "Booking not found")
  | some booking =>
    if !(booking.customer == user.id) then
      .error (.forbidden "Only the customer can add reviews")
    else if !(booking.status == "completed") then
      .error (.validation "Can only review completed bookings")
    else if truthyRating booking.customerRating then
      .error (.validation "Booking already reviewed")
    else
      if validateBooking (reviewedBooking booking rating review now) then
        .ok (replaceById db (reviewedBooking booking rating review now),
          findByIdAndUpdateRating users booking.mechanic
            (round1 (mechanicAverage
              (replaceById db (reviewedBooking booking rating review now))
              booking.mechanic))
            (ratedOf (replaceById db (reviewedBooking booking rating review now))
              booking.mechanic).length)
      else .error (.validation "Booking validation failed")

/-- A wall-clock reading as the generator decomposes it: the year and the
1-based month (`getMonth() + 1`), day, hour, minute, second. -/
structure Clock where
  year : Nat
  month : Nat
  day : Nat
  hour : Nat
  minute : Nat
  second : Nat
deriving Repr, DecidableEq

/-- Model of `n.toString().padStart(2, '0')`. -/
def pad2 (n : Nat) : String := if n < 10 then "0" ++ toString n else toString n

/-- Model of `Math.floor(1000 + Math.random() * 9000)` for a `Math.random()`
output `q`. -/
def randomPart (q : ℚ) : Nat := ((1000 : ℚ) + q * 9000).floor.toNat

/-- One candidate booking number:
`` `MB-${datePart}-${timePart}-${randomPart}` ``. -/
def mkBookingNumber (c : Clock) (q : ℚ) : String :=
  "MB-" ++ toString c.year ++ pad2 c.month ++ pad2 c.day ++ "-"
    ++ pad2 c.hour ++ pad2 c.minute ++ pad2 c.second ++ "-"
    ++ toString (randomPart q)

/-- The booking-number generation loop of the `pre('save')` hook, fed the
(clock, random) pair of each attempt: take the first candidate that does
not already exist; when the attempt list is exhausted, fail with the
hook's error.  The caller passes `tries.take 3`, matching `attempts < 3`. -/
def genBookingNumber (existing : List String) :
    List (Clock × ℚ) → Except String String
  | [] => .error "Could not generate a unique booking number. Please try again."
  | t :: ts =>
    if existing.contains (mkBookingNumber t.1 t.2) then genBookingNumber existing ts
    else .ok (mkBookingNumber t.1 t.2)

/-- The request body of `createBooking`, restricted to the fields the
engine's checks consume. -/
structure CreateReq where
  serviceId : Nat
  scheduledDate : Nat
  scheduledTime : String
deriving Repr, DecidableEq

/-- Model of `Service.findById`. -/
def findService (services : List Service) (sid : Nat) : Option Service :=
  services.find? (fun s => s.id == sid)

/-- The creation-time conflict lookup: `Booking.findOne({mechanic,
scheduledDate, status: {$in: activeStatuses}})`. -/
def findConflicting (db : List Booking) (mech : Nat) (date : Nat) : Option Booking :=
  db.find? (fun b =>
    b.mechanic == mech && b.scheduledDate == date && activeStatuses.contains b.status)

/-- The document `Booking.create` builds: references and schedule from the
request, pricing snapshotted from the service (`totalAmount =
service.basePrice`, no additional charges at creation), the schema default
status `confirmed`, and the assigned booking number. -/
def freshBooking (service : Service) (req : CreateReq) (custId newId : Nat)
    (bn : String) : Booking :=
  { id := newId, bookingNumber := bn, service := req.serviceId,
    mechanic := service.mechanic, customer := custId,
    scheduledDate := req.scheduledDate, scheduledTime := req.scheduledTime,
    status := "confirmed", statusHistory := [],
    actualStartTime := none, actualEndTime := none, actualDuration := none,
    cancellationReason := none, cancelledBy := none, cancelledAt := none,
    customerRating := none, customerReview := none, reviewDate := none,
    basePrice := service.basePrice, totalAmount := service.basePrice }

/-- Model of `createBooking`: resolve the service, require it active and
available, run the per-date conflict check against the mechanic's active
bookings, then `Booking.create` — which runs the `pre('save')` hook
(booking-number generation with at most 3 attempts) and schema
validation.  The controller passes no `status`, so the schema default
`confirmed` applies; a defaulted path is not a modified path in mongoose,
so `isModified('status')` is false and the hook pushes **no** history
entry: the fresh booking persists with an empty `statusHistory`.  `newId`
is the fresh `_id` the store assigns; `tries` is the stream of
(clock, random) pairs the generation loop consumes. -/
def createBooking (services : List Service) (db : List Booking) (user : User)
    (req : CreateReq) (now : Nat) (tries : List (Clock × ℚ)) (newId : Nat) :
    Except ApiError (List Booking × Booking) :=
  match findService services req.serviceId with
  | none => .error (.notFound "Service not found")
  | some service =>
    if !(service.isActive && service.isAvailable) then
      .error (.validation "Service is not available")
    else
      match findConflicting db service.mechanic req.scheduledDate with
      | some _ => .error (.validation "Mechanic is not available at the scheduled time")
      | none =>
        match genBookingNumber (db.map (fun b => b.bookingNumber)) (tries.take 3) with
        | .error m => .error (.validation m)
        | .ok bn =>
          if validateBooking (freshBooking service req user.id newId bn) then
            .ok (db ++ [freshBooking service req user.id newId bn],
                 freshBooking service req user.id newId bn)
          else .error (.validation "Booking validation failed")

/-! ## Derived notions used by the specification's invariants -/

/-- A history entry with its (mutable) note erased: the immutable part of
an entry. -/
def eraseNote (e : HistEntry) : HistEntry := { e with note := none }

/-- A history up to notes: the append-only skeleton of `statusHistory`. -/
def histShape (h : List HistEntry) : List HistEntry := h.map eraseNote

/-- The status of the last history entry, when there is one. -/
def lastStatus (h : List HistEntry) : Option String :=
  h.getLast?.map HistEntry.status

/-- The per-booking persistence invariant: the document passes schema
validation (in particular its status is an enum value) and its
`statusHistory` is either still empty (no status change has been saved
yet — creation pushes nothing, the schema-defaulted status not being a
modified path) or ends with an entry carrying the current status. -/
def BookingInv (b : Booking) : Prop :=
  validateBooking b = true ∧
    (b.statusHistory = [] ∨ lastStatus b.statusHistory = some b.status)

/-- The store invariant: distinct `_id`s, globally unique booking numbers,
and the per-booking invariant. -/
def DBInv (db : List Booking) : Prop :=
  (db.map Booking.id).Nodup ∧ (db.map Booking.bookingNumber).Nodup ∧
    ∀ b ∈ db, BookingInv b

/-- One request handled against the store: each constructor quantifies over
the request's inputs and requires the handler to answer successfully.  The
store assigns a fresh `_id` on creation. -/
inductive Step : List Booking → List Booking → Prop
  | create {services db user req now tries newId db' b} :
      newId ∉ db.map Booking.id →
      createBooking services db user req now tries newId = .ok (db', b) →
      Step db db'
  | update {db user bid target note now db' b} :
      updateBookingStatus db user bid target note now = .ok (db', b) →
      Step db db'
  | cancel {db user bid reason now db' b} :
      cancelBooking db user bid reason now = .ok (db', b) →
      Step db db'
  | review {db users user bid rating review now db' users'} :
      addReview db users user bid rating review now = .ok (db', users') →
      Step db db'

/-- The booking stores reachable from an empty collection by handled
requests. -/
inductive Reachable : List Booking → Prop
  | nil : Reachable []
  | step {db db'} : Reachable db → Step db db' → Reachable db'

/-! ## Projection and store lemmas -/

@[simp] lemma pushHistory_id (b : Booking) (now : Nat) :
    (pushHistory b now).id = b.id := rfl

@[simp] lemma pushHistory_status (b : Booking) (now : Nat) :
    (pushHistory b now).status = b.status := rfl

@[simp] lemma pushHistory_bookingNumber (b : Booking) (now : Nat) :
    (pushHistory b now).bookingNumber = b.bookingNumber := rfl

@[simp] lemma pushHistory_statusHistory (b : Booking) (now : Nat) :
    (pushHistory b now).statusHistory = b.statusHistory ++
      [⟨b.status, now, none, if b.status == "pending" then b.customer else b.mechanic⟩] := rfl

lemma applyStatusEffects_id (b : Booking) (t : String) (u now : Nat) :
    (applyStatusEffects b t u now).id = b.id := by
  unfold applyStatusEffects
  split_ifs <;> (try rfl) <;> (cases b.actualStartTime <;> rfl)

lemma applyStatusEffects_status (b : Booking) (t : String) (u now : Nat) :
    (applyStatusEffects b t u now).status = b.status := by
  unfold applyStatusEffects
  split_ifs <;> (try rfl) <;> (cases b.actualStartTime <;> rfl)

lemma applyStatusEffects_bookingNumber (b : Booking) (t : String) (u now : Nat) :
    (applyStatusEffects b t u now).bookingNumber = b.bookingNumber := by
  unfold applyStatusEffects
  split_ifs <;> (try rfl) <;> (cases b.actualStartTime <;> rfl)

lemma applyStatusEffects_statusHistory (b : Booking) (t : String) (u now : Nat) :
    (applyStatusEffects b t u now).statusHistory = b.statusHistory := by
  unfold applyStatusEffects
  split_ifs <;> (try rfl) <;> (cases b.actualStartTime <;> rfl)

lemma applyStatusEffects_customer (b : Booking) (t : String) (u now : Nat) :
    (applyStatusEffects b t u now).customer = b.customer := by
  unfold applyStatusEffects
  split_ifs <;> (try rfl) <;> (cases b.actualStartTime <;> rfl)

lemma applyStatusEffects_mechanic (b : Booking) (t : String) (u now : Nat) :
    (applyStatusEffects b t u now).mechanic = b.mechanic := by
  unfold applyStatusEffects
  split_ifs <;> (try rfl) <;> (cases b.actualStartTime <;> rfl)

lemma findBooking_mem {db : List Booking} {bid : Nat} {b : Booking}
    (h : findBooking db bid = some b) : b ∈ db :=
  List.mem_of_find?_eq_some h

lemma findBooking_id {db : List Booking} {bid : Nat} {b : Booking}
    (h : findBooking db bid = some b) : b.id = bid := by
  have := List.find?_some h
  simpa using this

lemma mem_replaceById {db : List Booking} {b x : Booking}
    (h : x ∈ replaceById db b) : x = b ∨ x ∈ db := by
  rcases List.mem_map.mp h with ⟨y, hy, rfl⟩
  by_cases hid : y.id == b.id <;> simp [hid, hy]

lemma replaceById_map_id (db : List Booking) (b : Booking) :
    (replaceById db b).map Booking.id = db.map Booking.id := by
  unfold replaceById
  rw [List.map_map]
  apply List.map_congr_left
  intro x hx
  by_cases hid : x.id == b.id <;> simp_all [Function.comp]

lemma replaceById_map_number {db : List Booking} {b b0 : Booking}
    (hnodup : (db.map Booking.id).Nodup) (hb0 : b0 ∈ db)
    (hid : b.id = b0.id) (hnum : b.bookingNumber = b0.bookingNumber) :
    (replaceById db b).map Booking.bookingNumber = db.map Booking.bookingNumber := by
  unfold replaceById
  rw [List.map_map]
  apply List.map_congr_left
  intro x hx
  by_cases h : x.id == b.id
  · have hx0 : x = b0 := by
      apply List.inj_on_of_nodup_map hnodup hx hb0
      rw [← hid]
      simpa using h
    subst hx0
    simp [Function.comp, h, hnum]
  · simp [Function.comp, h]

lemma findBooking_replaceById {db : List Booking} {bid : Nat} {b0 b : Booking}
    (hfind : findBooking db bid = some b0) (hid : b.id = b0.id) :
    findBooking (replaceById db b) bid = some b := by
  have hb0id : b0.id = bid := findBooking_id hfind
  unfold findBooking replaceById at *
  induction db with
  | nil => simp at hfind
  | cons x xs ih =>
    by_cases hx : x.id = bid
    · have hpx : ((fun y : Booking => y.id == bid) x) = true := by simpa using hx
      rw [List.find?_cons_of_pos (p := fun y : Booking => y.id == bid) xs hpx] at hfind
      have hx0 : x = b0 := Option.some.inj hfind
      have hxb : (x.id == b.id) = true := by simp [hx0, hid]
      have hpb : ((fun y : Booking => y.id == bid) b) = true := by
        simp [hid, hb0id]
      simp only [List.map_cons, hxb, if_true]
      rw [List.find?_cons_of_pos (p := fun y : Booking => y.id == bid) _ hpb]
    · have hpx : ¬((fun y : Booking => y.id == bid) x) = true := by simpa using hx
      rw [List.find?_cons_of_neg (p := fun y : Booking => y.id == bid) xs hpx] at hfind
      have hxb : (x.id == b.id) = false := by
        simp [hid, hb0id]
        exact hx
      simp only [List.map_cons, hxb, Bool.false_eq_true, if_false]
      rw [List.find?_cons_of_neg (p := fun y : Booking => y.id == bid) _ hpx]
      exact ih hfind

lemma setLastNote_histShape (h : List HistEntry) (n : String) :
    histShape (setLastNote h n) = histShape h := by
  induction h with
  | nil => rfl
  | cons e rest ih =>
    cases rest with
    | nil => rfl
    | cons e' rest' =>
      simp only [setLastNote, histShape, List.map_cons] at ih ⊢
      rw [ih]

lemma setLastNote_length (h : List HistEntry) (n : String) :
    (setLastNote h n).length = h.length := by
  induction h with
  | nil => rfl
  | cons e rest ih =>
    cases rest with
    | nil => rfl
    | cons e' rest' =>
      simp only [setLastNote, List.length_cons] at ih ⊢
      rw [ih]

lemma setLastNote_getLast? (h : List HistEntry) (n : String) (hne : h ≠ []) :
    (setLastNote h n).getLast? =
      (h.getLast?).map (fun e => { e with note := some n }) := by
  induction h with
  | nil => exact absurd rfl hne
  | cons e rest ih =>
    cases rest with
    | nil => rfl
    | cons e' rest' =>
      have hne' : e' :: rest' ≠ [] := by simp
      have step : setLastNote (e :: e' :: rest') n = e :: setLastNote (e' :: rest') n := rfl
      obtain ⟨y, ys, hys⟩ : ∃ y ys, setLastNote (e' :: rest') n = y :: ys := by
        cases rest' <;> exact ⟨_, _, rfl⟩
      rw [step, hys, List.getLast?_cons_cons, ← hys, ih hne',
        List.getLast?_cons_cons]

lemma setLastNote_map_status (h : List HistEntry) (n : String) :
    (setLastNote h n).map HistEntry.status = h.map HistEntry.status := by
  induction h with
  | nil => rfl
  | cons e rest ih =>
    cases rest with
    | nil => rfl
    | cons e' rest' =>
      simp only [setLastNote, List.map_cons] at ih ⊢
      rw [ih]

lemma histShape_append (h₁ h₂ : List HistEntry) :
    histShape (h₁ ++ h₂) = histShape h₁ ++ histShape h₂ :=
  List.map_append eraseNote h₁ h₂

lemma genBookingNumber_ok {existing : List String} {ts : List (Clock × ℚ)}
    {bn : String} (h : genBookingNumber existing ts = .ok bn) :
    bn ∉ existing ∧ ∃ t ∈ ts, bn = mkBookingNumber t.1 t.2 := by
  induction ts with
  | nil => simp [genBookingNumber] at h
  | cons t ts ih =>
    rw [genBookingNumber] at h
    by_cases hc : existing.contains (mkBookingNumber t.1 t.2)
    · rw [if_pos hc] at h
      obtain ⟨h1, t', ht', hbn⟩ := ih h
      exact ⟨h1, t', List.mem_cons_of_mem _ ht', hbn⟩
    · rw [if_neg hc] at h
      have hbn : bn = mkBookingNumber t.1 t.2 := (Except.ok.inj h).symm
      subst hbn
      refine ⟨?_, t, List.mem_cons_self _ _, rfl⟩
      intro hmem
      exact hc (by simpa using hmem)

lemma genBookingNumber_exhausted {existing : List String}
    {ts : List (Clock × ℚ)}
    (h : ∀ t ∈ ts, mkBookingNumber t.1 t.2 ∈ existing) :
    genBookingNumber existing ts =
      .error "Could not generate a unique booking number. Please try again." := by
  induction ts with
  | nil => rfl
  | cons t ts ih =>
    rw [genBookingNumber,
      if_pos (by simpa using h t (List.mem_cons_self _ _))]
    exact ih fun t' ht' => h t' (List.mem_cons_of_mem _ ht')

lemma saveExisting_ok {db : List Booking} {b : Booking} {sm : Bool}
    {now : Nat} {db' : List Booking} {b' : Booking}
    (h : saveExisting db b sm now = .ok (db', b')) :
    b' = savedDoc b sm now ∧ db' = replaceById db b' ∧
      validateBooking b' = true := by
  unfold saveExisting at h
  split at h
  · next hv =>
    rw [Except.ok.injEq, Prod.mk.injEq] at h
    obtain ⟨h1, h2⟩ := h
    subst h2
    subst h1
    exact ⟨rfl, rfl, hv⟩
  · exact absurd h (by simp)

lemma validateBooking_status_mem {b : Booking}
    (h : validateBooking b = true) : b.status ∈ statusEnum := by
  unfold validateBooking at h
  simp only [Bool.and_eq_true] at h
  simpa using h.1.1

lemma validateBooking_history_mem {b : Booking}
    (h : validateBooking b = true) :
    ∀ e ∈ b.statusHistory, e.status ∈ statusEnum := by
  unfold validateBooking at h
  simp only [Bool.and_eq_true, List.all_eq_true] at h
  intro e he
  simpa using h.1.2 e he

lemma savedDoc_true (b : Booking) (now : Nat) :
    savedDoc b true now = pushHistory b now := rfl

lemma lastStatus_concat (h : List HistEntry) (e : HistEntry) :
    lastStatus (h ++ [e]) = some e.status := by
  unfold lastStatus
  rw [List.getLast?_concat]
  rfl

/-- A successful status-modifying save yields a document whose last
history entry carries the (new) current status. -/
lemma savePushed_last {db : List Booking} {b : Booking} {now : Nat}
    {db' : List Booking} {b' : Booking}
    (h : saveExisting db b true now = .ok (db', b')) :
    lastStatus b'.statusHistory = some b'.status := by
  obtain ⟨hb', _, _⟩ := saveExisting_ok h
  rw [savedDoc_true] at hb'
  rw [hb', pushHistory_status, pushHistory_statusHistory, lastStatus_concat]

/-- A successful status-modifying save yields a document satisfying the
per-booking invariant. -/
lemma savePushed_inv {db : List Booking} {b : Booking} {now : Nat}
    {db' : List Booking} {b' : Booking}
    (h : saveExisting db b true now = .ok (db', b')) : BookingInv b' := by
  obtain ⟨hb', _, hv⟩ := saveExisting_ok h
  rw [savedDoc_true] at hb'
  constructor
  · rw [hb'] at hv
    rw [hb']
    exact hv
  · exact Or.inr (savePushed_last h)

lemma validateBooking_fresh (service : Service) (req : CreateReq)
    (custId newId : Nat) (bn : String) :
    validateBooking (freshBooking service req custId newId bn) = true := rfl

lemma createBooking_ok {services : List Service} {db : List Booking}
    {user : User} {req : CreateReq} {now : Nat} {tries : List (Clock × ℚ)}
    {newId : Nat} {db' : List Booking} {b : Booking}
    (h : createBooking services db user req now tries newId = .ok (db', b)) :
    ∃ service bn,
      findService services req.serviceId = some service ∧
      service.isActive = true ∧ service.isAvailable = true ∧
      findConflicting db service.mechanic req.scheduledDate = none ∧
      genBookingNumber (db.map (fun x => x.bookingNumber)) (tries.take 3) = .ok bn ∧
      b = freshBooking service req user.id newId bn ∧
      db' = db ++ [b] := by
  unfold createBooking at h
  cases hserv : findService services req.serviceId with
  | none => rw [hserv] at h; exact absurd h (by simp)
  | some service =>
    rw [hserv] at h
    cases hact : (service.isActive && service.isAvailable) with
    | false => simp [hact] at h
    | true =>
      simp only [hact, Bool.not_true, Bool.false_eq_true, if_false] at h
      cases hconf : findConflicting db service.mechanic req.scheduledDate with
      | some c => rw [hconf] at h; exact absurd h (by simp)
      | none =>
        rw [hconf] at h
        cases hgen : genBookingNumber (db.map (fun x => x.bookingNumber)) (tries.take 3) with
        | error m => rw [hgen] at h; exact absurd h (by simp)
        | ok bn =>
          rw [hgen] at h
          dsimp only at h
          rw [if_pos (validateBooking_fresh service req user.id newId bn)] at h
          rw [Except.ok.injEq, Prod.mk.injEq] at h
          obtain ⟨h1, h2⟩ := h
          subst h2
          refine ⟨service, bn, rfl, ?_, ?_, hconf, rfl, rfl, h1.symm⟩
          · exact (Bool.and_eq_true _ _).mp hact |>.1
          · exact (Bool.and_eq_true _ _).mp hact |>.2

lemma updateBookingStatus_ok {db : List Booking} {user : User} {bid : Nat}
    {target : String} {note : Option String} {now : Nat}
    {db' : List Booking} {b' : Booking}
    (h : updateBookingStatus db user bid target note now = .ok (db', b')) :
    ∃ booking hist2, findBooking db bid = some booking ∧
      isParticipantOrAdmin user booking = true ∧
      (∃ allowed, validTransitionsTable booking.status = some allowed ∧
        target ∈ allowed) ∧
      ((note = none ∧ hist2 = booking.statusHistory) ∨
        (∃ n, note = some n ∧ booking.statusHistory ≠ [] ∧
          hist2 = setLastNote booking.statusHistory n)) ∧
      saveExisting db
        (applyStatusEffects
          { booking with status := target, statusHistory := hist2 }
          target user.id now) true now = .ok (db', b') := by
  unfold updateBookingStatus at h
  cases hfind : findBooking db bid with
  | none => rw [hfind] at h; exact absurd h (by simp)
  | some booking =>
    rw [hfind] at h
    cases hauth : isParticipantOrAdmin user booking with
    | false => simp [hauth] at h
    | true =>
      simp only [hauth, Bool.not_true, Bool.false_eq_true, if_false] at h
      cases htab : validTransitionsTable booking.status with
      | none => rw [htab] at h; exact absurd h (by simp)
      | some allowed =>
        rw [htab] at h
        dsimp only at h
        cases hmem : allowed.contains target with
        | false =>
          rw [hmem] at h
          simp at h
        | true =>
          simp only [hmem, Bool.not_true, Bool.false_eq_true, if_false] at h
          cases note with
          | none =>
            exact ⟨booking, booking.statusHistory, rfl, hauth,
              ⟨allowed, htab, by simpa using hmem⟩, Or.inl ⟨rfl, rfl⟩, h⟩
          | some n =>
            cases hemp : booking.statusHistory.isEmpty with
            | true => simp [hemp] at h
            | false =>
              simp only [hemp, Bool.false_eq_true, if_false] at h
              exact ⟨booking, setLastNote booking.statusHistory n, rfl, hauth,
                ⟨allowed, htab, by simpa using hmem⟩,
                Or.inr ⟨n, rfl, by simpa using hemp, rfl⟩, h⟩

lemma cancelBooking_ok {db : List Booking} {user : User} {bid : Nat}
    {reason : Option String} {now : Nat} {db' : List Booking} {b' : Booking}
    (h : cancelBooking db user bid reason now = .ok (db', b')) :
    ∃ booking, findBooking db bid = some booking ∧
      (booking.status == "completed" || booking.status == "cancelled") = false ∧
      isParticipantOrAdmin user booking = true ∧
      saveExisting db
        { booking with status := "cancelled", cancellationReason := reason,
                       cancelledBy := some user.id, cancelledAt := some now }
        true now = .ok (db', b') := by
  unfold cancelBooking at h
  cases hfind : findBooking db bid with
  | none => rw [hfind] at h; exact absurd h (by simp)
  | some booking =>
    rw [hfind] at h
    cases hterm : (booking.status == "completed" || booking.status == "cancelled") with
    | true => simp [hterm] at h
    | false =>
      simp only [hterm, Bool.false_eq_true, if_false] at h
      cases hauth : isParticipantOrAdmin user booking with
      | false => simp [hauth] at h
      | true =>
        simp only [hauth, Bool.not_true, Bool.false_eq_true, if_false] at h
        exact ⟨booking, rfl, hterm, hauth, h⟩

lemma addReview_ok {db : List Booking} {users : List User} {user : User}
    {bid : Nat} {rating : ℚ} {review : Option String} {now : Nat}
    {db' : List Booking} {users' : List User}
    (h : addReview db users user bid rating review now = .ok (db', users')) :
    ∃ booking, findBooking db bid = some booking ∧
      booking.customer = user.id ∧ booking.status = "completed" ∧
      truthyRating booking.customerRating = false ∧
      validateBooking (reviewedBooking booking rating review now) = true ∧
      db' = replaceById db (reviewedBooking booking rating review now) ∧
      users' = findByIdAndUpdateRating users booking.mechanic
        (round1 (mechanicAverage db' booking.mechanic))
        (ratedOf db' booking.mechanic).length := by
  unfold addReview at h
  cases hfind : findBooking db bid with
  | none => rw [hfind] at h; exact absurd h (by simp)
  | some booking =>
    rw [hfind] at h
    cases hcust : (booking.customer == user.id) with
    | false => simp [hcust] at h
    | true =>
      simp only [hcust, Bool.not_true, Bool.false_eq_true, if_false] at h
      cases hstat : (booking.status == "completed") with
      | false => simp [hstat] at h
      | true =>
        simp only [hstat, Bool.not_true, Bool.false_eq_true, if_false] at h
        cases hrated : truthyRating booking.customerRating with
        | true => simp [hrated] at h
        | false =>
          simp only [hrated, Bool.false_eq_true, if_false] at h
          cases hval : validateBooking (reviewedBooking booking rating review now) with
          | false => simp [hval] at h
          | true =>
            rw [if_pos hval] at h
            rw [Except.ok.injEq, Prod.mk.injEq] at h
            obtain ⟨h1, h2⟩ := h
            subst h1
            exact ⟨booking, rfl, by simpa using hcust, by simpa using hstat,
              hrated, hval, rfl, h2.symm⟩

/-! ## The store invariant is preserved by every handled request -/

lemma updated_fields {booking : Booking} {hist2 : List HistEntry}
    {target : String} {user : User} {now : Nat} {b' : Booking}
    (hb' : b' = savedDoc (applyStatusEffects
      { booking with status := target, statusHistory := hist2 }
      target user.id now) true now) :
    b'.statusHistory = hist2 ++
      [⟨target, now, none,
        if target == "pending" then booking.customer else booking.mechanic⟩] ∧
    b'.status = target ∧ b'.id = booking.id ∧
    b'.bookingNumber = booking.bookingNumber := by
  subst hb'
  rw [savedDoc_true]
  refine ⟨?_, ?_, ?_, ?_⟩
  · rw [pushHistory_statusHistory, applyStatusEffects_statusHistory,
      applyStatusEffects_status, applyStatusEffects_customer,
      applyStatusEffects_mechanic]
  · rw [pushHistory_status, applyStatusEffects_status]
  · rw [pushHistory_id, applyStatusEffects_id]
  · rw [pushHistory_bookingNumber, applyStatusEffects_bookingNumber]

lemma cancelled_fields {booking : Booking} {reason : Option String}
    {user : User} {now : Nat} {b' : Booking}
    (hb' : b' = savedDoc
      { booking with status := "cancelled", cancellationReason := reason,
                     cancelledBy := some user.id, cancelledAt := some now }
      true now) :
    b'.statusHistory = booking.statusHistory ++
      [⟨"cancelled", now, none, booking.mechanic⟩] ∧
    b'.status = "cancelled" ∧ b'.id = booking.id ∧
    b'.bookingNumber = booking.bookingNumber ∧
    b'.cancellationReason = reason ∧ b'.cancelledBy = some user.id ∧
    b'.cancelledAt = some now := by
  subst hb'
  rw [savedDoc_true]
  exact ⟨rfl, rfl, rfl, rfl, rfl, rfl, rfl⟩

lemma BookingInv_fresh (service : Service) (req : CreateReq)
    (custId newId : Nat) (bn : String) :
    BookingInv (freshBooking service req custId newId bn) :=
  ⟨validateBooking_fresh service req custId newId bn, Or.inl rfl⟩

lemma fresh_id (service : Service) (req : CreateReq)
    (custId newId : Nat) (bn : String) :
    (freshBooking service req custId newId bn).id = newId := rfl

lemma fresh_number (service : Service) (req : CreateReq)
    (custId newId : Nat) (bn : String) :
    (freshBooking service req custId newId bn).bookingNumber = bn := rfl

lemma nodup_concat_of_not_mem {α : Type} {l : List α} {a : α}
    (hl : l.Nodup) (ha : a ∉ l) : (l ++ [a]).Nodup := by
  refine List.Nodup.append hl (List.nodup_singleton a) ?_
  intro x hx hmem
  rw [List.mem_singleton] at hmem
  subst hmem
  exact ha hx

lemma stepInv {db db' : List Booking} (hinv : DBInv db)
    (hstep : Step db db') : DBInv db' := by
  obtain ⟨hids, hnums, hbs⟩ := hinv
  cases hstep with
  | @create services _ user req now tries newId _ bnew hfresh hok =>
    obtain ⟨service, bn, _, _, _, _, hgen, hb, hdb'⟩ := createBooking_ok hok
    subst hdb'
    have hbid : bnew.id = newId := by rw [hb]; rfl
    have hbnum : bnew.bookingNumber = bn := by rw [hb]; rfl
    refine ⟨?_, ?_, ?_⟩
    · rw [List.map_append]
      exact nodup_concat_of_not_mem hids (by simpa [hbid] using hfresh)
    · rw [List.map_append]
      refine nodup_concat_of_not_mem hnums ?_
      have := (genBookingNumber_ok hgen).1
      simpa [hbnum] using this
    · intro x hx
      rcases List.mem_append.mp hx with hx | hx
      · exact hbs x hx
      · rw [List.mem_singleton] at hx
        subst hx
        rw [hb]
        exact BookingInv_fresh service _ _ newId bn
  | update hok =>
    obtain ⟨booking, hist2, hfind, _, _, hhist2, hsave⟩ := updateBookingStatus_ok hok
    obtain ⟨hb', hdb', hval⟩ := saveExisting_ok hsave
    obtain ⟨_, _, hbid, hbnum⟩ := updated_fields hb'
    subst hdb'
    refine ⟨?_, ?_, ?_⟩
    · rw [replaceById_map_id]
      exact hids
    · rw [replaceById_map_number hids (findBooking_mem hfind) hbid hbnum]
      exact hnums
    · intro x hx
      rcases mem_replaceById hx with hx | hx
      · subst hx
        exact savePushed_inv hsave
      · exact hbs x hx
  | cancel hok =>
    obtain ⟨booking, hfind, _, _, hsave⟩ := cancelBooking_ok hok
    obtain ⟨hb', hdb', hval⟩ := saveExisting_ok hsave
    obtain ⟨_, _, hbid, hbnum, _, _, _⟩ := cancelled_fields hb'
    subst hdb'
    refine ⟨?_, ?_, ?_⟩
    · rw [replaceById_map_id]
      exact hids
    · rw [replaceById_map_number hids (findBooking_mem hfind) hbid hbnum]
      exact hnums
    · intro x hx
      rcases mem_replaceById hx with hx | hx
      · subst hx
        exact savePushed_inv hsave
      · exact hbs x hx
  | review hok =>
    obtain ⟨booking, hfind, _, _, _, hval, hdb', _⟩ := addReview_ok hok
    subst hdb'
    refine ⟨?_, ?_, ?_⟩
    · rw [replaceById_map_id]
      exact hids
    · rw [replaceById_map_number (b := reviewedBooking booking _ _ _) hids
        (findBooking_mem hfind) rfl rfl]
      exact hnums
    · intro x hx
      rcases mem_replaceById hx with hx | hx
      · subst hx
        exact ⟨hval, (hbs booking (findBooking_mem hfind)).2⟩
      · exact hbs x hx

/-- Every reachable store satisfies the invariant. -/
theorem reachableInv {db : List Booking} (h : Reachable db) : DBInv db := by
  induction h with
  | nil => exact ⟨List.nodup_nil, List.nodup_nil, by simp⟩
  | step _ hstep ih => exact stepInv ih hstep

/-- History skeletons only grow: any step maps each surviving booking's
note-erased history to an extension of what it was. -/
def HistExtends (db db' : List Booking) : Prop :=
  ∀ b' ∈ db', ∀ b ∈ db, b.id = b'.id →
    histShape b.statusHistory <+: histShape b'.statusHistory

lemma histShape_concat (h : List HistEntry) (e : HistEntry) :
    histShape (h ++ [e]) = histShape h ++ [eraseNote e] :=
  histShape_append h [e]

lemma stepHistExtends {db db' : List Booking} (hinv : DBInv db)
    (hstep : Step db db') : HistExtends db db' := by
  obtain ⟨hids, _, _⟩ := hinv
  intro b'' hb'' b hb hbid
  cases hstep with
  | @create services _ user req now tries newId _ bnew hfresh hok =>
    obtain ⟨service, bn, _, _, _, _, hgen, hbform, hdb'⟩ := createBooking_ok hok
    subst hdb'
    rcases List.mem_append.mp hb'' with hmem | hmem
    · have : b = b'' := List.inj_on_of_nodup_map hids hb hmem hbid
      rw [this]
    · rw [List.mem_singleton] at hmem
      exfalso
      apply hfresh
      have hbnewid : b''.id = newId := by rw [hmem, hbform]; rfl
      rw [← hbnewid, ← hbid]
      exact List.mem_map_of_mem Booking.id hb
  | update hok =>
    obtain ⟨booking, hist2, hfind, _, _, hhist2, hsave⟩ := updateBookingStatus_ok hok
    obtain ⟨hb', hdb', _⟩ := saveExisting_ok hsave
    obtain ⟨hhist, _, hbid', _⟩ := updated_fields hb'
    subst hdb'
    rcases mem_replaceById hb'' with hmem | hmem
    · subst hmem
      have hbb : b = booking :=
        List.inj_on_of_nodup_map hids hb (findBooking_mem hfind) (by rw [hbid, hbid'])
      subst hbb
      rw [hhist, histShape_concat]
      have hsh : histShape hist2 = histShape b.statusHistory := by
        rcases hhist2 with ⟨_, h2⟩ | ⟨n, _, _, h2⟩
        · rw [h2]
        · rw [h2, setLastNote_histShape]
      rw [← hsh]
      exact List.prefix_append _ _
    · have : b = b'' := List.inj_on_of_nodup_map hids hb hmem hbid
      rw [this]
  | cancel hok =>
    obtain ⟨booking, hfind, _, _, hsave⟩ := cancelBooking_ok hok
    obtain ⟨hb', hdb', _⟩ := saveExisting_ok hsave
    obtain ⟨hhist, _, hbid', _, _, _, _⟩ := cancelled_fields hb'
    subst hdb'
    rcases mem_replaceById hb'' with hmem | hmem
    · subst hmem
      have hbb : b = booking :=
        List.inj_on_of_nodup_map hids hb (findBooking_mem hfind) (by rw [hbid, hbid'])
      subst hbb
      rw [hhist, histShape_concat]
      exact List.prefix_append _ _
    · have : b = b'' := List.inj_on_of_nodup_map hids hb hmem hbid
      rw [this]
  | review hok =>
    obtain ⟨booking, hfind, _, _, _, hval, hdb', _⟩ := addReview_ok hok
    subst hdb'
    rcases mem_replaceById hb'' with hmem | hmem
    · subst hmem
      have hbb : b = booking :=
        List.inj_on_of_nodup_map hids hb (findBooking_mem hfind) hbid
      subst hbb
      exact List.prefix_refl _
    · have : b = b'' := List.inj_on_of_nodup_map hids hb hmem hbid
      rw [this]

/-! ## The store as it stands after a request

An error response is produced before any `save()` ran, so it leaves the
persisted collections untouched; these wrappers make that explicit. -/

def bookingsAfterCreate (services : List Service) (db : List Booking)
    (user : User) (req : CreateReq) (now : Nat) (tries : List (Clock × ℚ))
    (newId : Nat) : List Booking :=
  match createBooking services db user req now tries newId with
  | .ok (db', _) => db'
  | .error _ => db

def bookingsAfterUpdate (db : List Booking) (user : User) (bid : Nat)
    (target : String) (note : Option String) (now : Nat) : List Booking :=
  match updateBookingStatus db user bid target note now with
  | .ok (db', _) => db'
  | .error _ => db

def bookingsAfterCancel (db : List Booking) (user : User) (bid : Nat)
    (reason : Option String) (now : Nat) : List Booking :=
  match cancelBooking db user bid reason now with
  | .ok (db', _) => db'
  | .error _ => db

def storeAfterReview (db : List Booking) (users : List User) (user : User)
    (bid : Nat) (rating : ℚ) (review : Option String) (now : Nat) :
    List Booking × List User :=
  match addReview db users user bid rating review now with
  | .ok (db', users') => (db', users')
  | .error _ => (db, users)

/-! ## Further validation helpers -/

lemma validateBooking_parts {b : Booking} (h : validateBooking b = true) :
    statusEnum.contains b.status = true ∧
    b.statusHistory.all (fun e => statusEnum.contains e.status) = true ∧
    (match b.customerRating with
      | none => true
      | some r => decide (1 ≤ r) && decide (r ≤ 5)) = true := by
  unfold validateBooking at h
  simp only [Bool.and_eq_true] at h
  exact ⟨h.1.1, h.1.2, h.2⟩

lemma validateBooking_pushHistory {b : Booking} (now : Nat)
    (hv : validateBooking b = true) :
    validateBooking (pushHistory b now) = true := by
  obtain ⟨hs, hh, hr⟩ := validateBooking_parts hv
  unfold validateBooking pushHistory
  dsimp only
  rw [List.all_append, hh, hr]
  simp only [List.all_cons, List.all_nil, Bool.and_true, Bool.true_and, hs]

lemma validateBooking_cancelDoc {b : Booking} {reason : Option String}
    {uid now : Nat} (hv : validateBooking b = true) :
    validateBooking
      { b with status := "cancelled", cancellationReason := reason,
               cancelledBy := some uid, cancelledAt := some now } = true := by
  obtain ⟨_, hh, hr⟩ := validateBooking_parts hv
  unfold validateBooking
  dsimp only
  rw [hh, hr]
  rfl

lemma validateBooking_false_of_status {b : Booking}
    (hs : statusEnum.contains b.status = false) :
    validateBooking b = false := by
  unfold validateBooking
  rw [hs]
  rfl

lemma genBookingNumber_error_msg {existing : List String}
    {ts : List (Clock × ℚ)} {m : String}
    (h : genBookingNumber existing ts = .error m) :
    m = "Could not generate a unique booking number. Please try again." := by
  induction ts with
  | nil => exact (Except.error.inj h).symm
  | cons t ts ih =>
    rw [genBookingNumber] at h
    by_cases hc : existing.contains (mkBookingNumber t.1 t.2)
    · rw [if_pos hc] at h
      exact ih h
    · rw [if_neg hc] at h
      exact absurd h (by simp)

lemma ratFloor_eq_intFloor (x : ℚ) : x.floor = ⌊x⌋ := rfl

lemma randomPart_bounds {q : ℚ} (h0 : 0 ≤ q) (h1 : q < 1) :
    1000 ≤ randomPart q ∧ randomPart q ≤ 9999 := by
  unfold randomPart
  rw [ratFloor_eq_intFloor]
  have hlo : (1000 : ℤ) ≤ ⌊(1000 : ℚ) + q * 9000⌋ := by
    rw [Int.le_floor]
    push_cast
    nlinarith
  have hhi : ⌊(1000 : ℚ) + q * 9000⌋ < 10000 := by
    rw [Int.floor_lt]
    push_cast
    nlinarith
  omega

def sampleBooking : Booking :=
  { id := 1, bookingNumber := "MB-20240101-120000-1234", service := 5,
    mechanic := 20, customer := 10, scheduledDate := 100,
    scheduledTime := "10:00", status := "confirmed",
    statusHistory := [⟨"confirmed", 0, none, 20⟩],
    actualStartTime := none, actualEndTime := none, actualDuration := none,
    cancellationReason := none, cancelledBy := none, cancelledAt := none,
    customerRating := none, customerReview := none, reviewDate := none,
    basePrice := 500, totalAmount := 500 }

def sampleCustomer : User := ⟨10, "customer", none, none⟩

def sampleMechanic : User := ⟨20, "mechanic", none, none⟩

def sampleDb : List Booking := [sampleBooking]

def sampleService : Service := ⟨5, 20, true, true, 500, some 60⟩

def sampleReq : CreateReq := ⟨5, 100, "10:00"⟩

def sampleClock : Clock := ⟨2024, 1, 1, 12, 0, 0⟩

def sampleQ : ℚ := 234 / 9000

/-- The sample booking marked completed. -/
def sampleDone : Booking := { sampleBooking with status := "completed" }

/-- The completed sample booking already carrying a rating. -/
def sampleRated : Booking :=
  { sampleBooking with status := "completed", customerRating := some 4 }

/-- The booking the sample creation run persists (its number left in
symbolic form): its `statusHistory` is empty, creation pushing nothing. -/
def sampleCreated : Booking :=
  freshBooking sampleService sampleReq 10 1 (mkBookingNumber sampleClock sampleQ)

lemma sampleCreate_eval :
    createBooking [sampleService] [] sampleCustomer sampleReq 3
      [(sampleClock, sampleQ)] 1 = .ok ([sampleCreated], sampleCreated) := rfl

lemma sampleReachable : Reachable [sampleCreated] :=
  Reachable.step Reachable.nil (Step.create (by simp) sampleCreate_eval)

/-! ## Claim theorems -/

/-- Claim C2: For every stored booking and target status, when the pair
(current status, target) is not in the transition table, the status-update
operation (issued by an authorized requester) fails with an
invalid-transition error naming the source and target statuses, and the
persisted collection is unchanged. -/
theorem C2_invalid_transition_fails (db : List Booking) (user : User)
    (bid : Nat) (target : String) (note : Option String) (now : Nat)
    (b : Booking) (allowed : List String)
    (hfind : findBooking db bid = some b)
    (hauth : isParticipantOrAdmin user b = true)
    (htable : validTransitionsTable b.status = some allowed)
    (hnot : target ∉ allowed) :
    updateBookingStatus db user bid target note now =
      .error (.validation
        ("Invalid status transition from " ++ b.status ++ " to " ++ target)) ∧
    bookingsAfterUpdate db user bid target note now = db := by
  have hres : updateBookingStatus db user bid target note now =
      .error (.validation
        ("Invalid status transition from " ++ b.status ++ " to " ++ target)) := by
    unfold updateBookingStatus
    rw [hfind]
    dsimp only
    rw [hauth]
    simp only [Bool.not_true, Bool.false_eq_true, if_false]
    rw [htable]
    dsimp only
    have hnotc : allowed.contains target = false := by simpa using hnot
    rw [hnotc]
    rfl
  exact ⟨hres, by unfold bookingsAfterUpdate; rw [hres]⟩

/-- Witness for C2: on the sample store, confirmed → completed (skipping
in_progress) is rejected with the named transition error. -/
theorem C2_witness :
    updateBookingStatus sampleDb sampleMechanic 1 "completed" none 5 =
      .error (.validation
        "Invalid status transition from confirmed to completed") ∧
    bookingsAfterUpdate sampleDb sampleMechanic 1 "completed" none 5 = sampleDb :=
  C2_invalid_transition_fails sampleDb sampleMechanic 1 "completed" none 5
    sampleBooking ["in_progress", "cancelled"] rfl rfl rfl (by decide)

/-- Claim C7: Direct cancellation fails with the "cannot be cancelled"
validation error (before any authorization check) on a completed or
cancelled booking and leaves the store unchanged; on a booking in any
other status, requested by a participant or an admin, it succeeds, sets
status to `cancelled`, and records the reason, the requester as
`cancelledBy`, and the time as `cancelledAt`. -/
theorem C7_cancel_behaviour :
    (∀ (db : List Booking) (user : User) (bid : Nat) (reason : Option String)
        (now : Nat) (b : Booking),
      findBooking db bid = some b →
      (b.status = "completed" ∨ b.status = "cancelled") →
      cancelBooking db user bid reason now =
        .error (.validation "Booking cannot be cancelled") ∧
      bookingsAfterCancel db user bid reason now = db) ∧
    (∀ (db : List Booking) (user : User) (bid : Nat) (reason : Option String)
        (now : Nat) (b : Booking),
      findBooking db bid = some b →
      b.status ≠ "completed" → b.status ≠ "cancelled" →
      isParticipantOrAdmin user b = true →
      validateBooking b = true →
      ∃ db' b', cancelBooking db user bid reason now = .ok (db', b') ∧
        b'.status = "cancelled" ∧ b'.cancellationReason = reason ∧
        b'.cancelledBy = some user.id ∧ b'.cancelledAt = some now ∧
        findBooking db' bid = some b') := by
  constructor
  · intro db user bid reason now b hfind hterm
    have hres : cancelBooking db user bid reason now =
        .error (.validation "Booking cannot be cancelled") := by
      unfold cancelBooking
      rw [hfind]
      dsimp only
      have ht : (b.status == "completed" || b.status == "cancelled") = true := by
        rcases hterm with h | h <;> simp [h]
      rw [ht]
      rfl
    exact ⟨hres, by unfold bookingsAfterCancel; rw [hres]⟩
  · intro db user bid reason now b hfind hne1 hne2 hauth hval
    have ht : (b.status == "completed" || b.status == "cancelled") = false := by
      simp [hne1, hne2]
    have hvd : validateBooking (savedDoc
        { b with status := "cancelled", cancellationReason := reason,
                 cancelledBy := some user.id, cancelledAt := some now }
        true now) = true := by
      rw [savedDoc_true]
      exact validateBooking_pushHistory now (validateBooking_cancelDoc hval)
    have hres : cancelBooking db user bid reason now = .ok
        (replaceById db (savedDoc
          { b with status := "cancelled", cancellationReason := reason,
                   cancelledBy := some user.id, cancelledAt := some now }
          true now),
         savedDoc
          { b with status := "cancelled", cancellationReason := reason,
                   cancelledBy := some user.id, cancelledAt := some now }
          true now) := by
      unfold cancelBooking
      rw [hfind]
      dsimp only
      rw [ht]
      simp only [Bool.false_eq_true, if_false]
      rw [hauth]
      simp only [Bool.not_true, Bool.false_eq_true, if_false]
      unfold saveExisting
      rw [if_pos hvd]
    obtain ⟨hh, hst, hid, hnum, hcr, hcb, hca⟩ :=
      cancelled_fields (Eq.refl (savedDoc
        { b with status := "cancelled", cancellationReason := reason,
                 cancelledBy := some user.id, cancelledAt := some now }
        true now))
    exact ⟨_, _, hres, hst, hcr, hcb, hca, findBooking_replaceById hfind hid⟩

/-- Witness for C7: cancelling the completed sample booking fails; the
customer cancelling the confirmed sample booking succeeds and records the
cancellation fields. -/
theorem C7_witness :
    (cancelBooking [sampleDone] sampleCustomer 1 (some "late") 9 =
      .error (.validation "Booking cannot be cancelled") ∧
     bookingsAfterCancel [sampleDone] sampleCustomer 1 (some "late") 9 =
      [sampleDone]) ∧
    (∃ db' b', cancelBooking sampleDb sampleCustomer 1 (some "late") 9 =
        .ok (db', b') ∧
      b'.status = "cancelled" ∧ b'.cancellationReason = some "late" ∧
      b'.cancelledBy = some 10 ∧ b'.cancelledAt = some 9 ∧
      findBooking db' 1 = some b') :=
  ⟨C7_cancel_behaviour.1 [sampleDone] sampleCustomer 1 (some "late") 9
      sampleDone rfl (Or.inl rfl),
   C7_cancel_behaviour.2 sampleDb sampleCustomer 1 (some "late") 9 sampleBooking
      rfl (by decide) (by decide) rfl rfl⟩

/-- Claim C8: A review can be attached only by the booking's customer (anyone
else, admins included, gets a forbidden error), only when the booking is
completed (otherwise a validation error), and at most once (a second
attempt gets a validation error and the store, hence the stored rating, is
unchanged). -/
theorem C8_review_guards :
    (∀ (db : List Booking) (users : List User) (user : User) (bid : Nat)
        (rating : ℚ) (review : Option String) (now : Nat) (b : Booking),
      findBooking db bid = some b → b.customer ≠ user.id →
      addReview db users user bid rating review now =
        .error (.forbidden "Only the customer can add reviews")) ∧
    (∀ (db : List Booking) (users : List User) (user : User) (bid : Nat)
        (rating : ℚ) (review : Option String) (now : Nat) (b : Booking),
      findBooking db bid = some b → b.customer = user.id →
      b.status ≠ "completed" →
      addReview db users user bid rating review now =
        .error (.validation "Can only review completed bookings")) ∧
    (∀ (db : List Booking) (users : List User) (user : User) (bid : Nat)
        (rating : ℚ) (review : Option String) (now : Nat) (b : Booking),
      findBooking db bid = some b → b.customer = user.id →
      b.status = "completed" → truthyRating b.customerRating = true →
      addReview db users user bid rating review now =
        .error (.validation "Booking already reviewed") ∧
      storeAfterReview db users user bid rating review now = (db, users)) := by
  refine ⟨?_, ?_, ?_⟩
  · intro db users user bid rating review now b hfind hne
    unfold addReview
    rw [hfind]
    dsimp only
    have hc : (b.customer == user.id) = false := by simpa using hne
    rw [hc]
    rfl
  · intro db users user bid rating review now b hfind hcust hne
    unfold addReview
    rw [hfind]
    dsimp only
    have hc : (b.customer == user.id) = true := by simpa using hcust
    rw [hc]
    simp only [Bool.not_true, Bool.false_eq_true, if_false]
    have hs : (b.status == "completed") = false := by simpa using hne
    rw [hs]
    rfl
  · intro db users user bid rating review now b hfind hcust hstat htr
    have hres : addReview db users user bid rating review now =
        .error (.validation "Booking already reviewed") := by
      unfold addReview
      rw [hfind]
      dsimp only
      have hc : (b.customer == user.id) = true := by simpa using hcust
      rw [hc]
      simp only [Bool.not_true, Bool.false_eq_true, if_false]
      have hs : (b.status == "completed") = true := by simpa using hstat
      rw [hs]
      simp only [Bool.not_true, Bool.false_eq_true, if_false]
      rw [htr]
      rfl
    exact ⟨hres, by unfold storeAfterReview; rw [hres]⟩

/-- Witness for C8: the mechanic may not review; a confirmed booking may
not be reviewed; an already-rated completed booking rejects a second
review and the store is unchanged. -/
theorem C8_witness :
    addReview [sampleDone] [] sampleMechanic 1 5 none 11 =
      .error (.forbidden "Only the customer can add reviews") ∧
    addReview sampleDb [] sampleCustomer 1 5 none 11 =
      .error (.validation "Can only review completed bookings") ∧
    (addReview [sampleRated] [] sampleCustomer 1 5 none 11 =
      .error (.validation "Booking already reviewed") ∧
     storeAfterReview [sampleRated] [] sampleCustomer 1 5 none 11 =
      ([sampleRated], [])) :=
  ⟨C8_review_guards.1 [sampleDone] [] sampleMechanic 1 5 none 11 sampleDone
      rfl (by decide),
   C8_review_guards.2.1 sampleDb [] sampleCustomer 1 5 none 11 sampleBooking
      rfl rfl (by decide),
   C8_review_guards.2.2 [sampleRated] [] sampleCustomer 1 5 none 11 sampleRated
      rfl rfl rfl (by decide)⟩

/-- Claim C4: Creation of a booking against an existing, active, available
service fails with the conflict validation error — persisting nothing —
exactly when some booking of the service's mechanic on the same
scheduledDate has a status in {pending, confirmed, in_progress}; bookings
of that mechanic in completed, cancelled, or disputed status do not block
creation. -/
theorem C4_schedule_conflict :
    (∀ (services : List Service) (db : List Booking) (user : User)
        (req : CreateReq) (now : Nat) (tries : List (Clock × ℚ)) (newId : Nat)
        (service : Service) (c : Booking),
      findService services req.serviceId = some service →
      service.isActive = true → service.isAvailable = true →
      findConflicting db service.mechanic req.scheduledDate = some c →
      createBooking services db user req now tries newId =
        .error (.validation "Mechanic is not available at the scheduled time") ∧
      bookingsAfterCreate services db user req now tries newId = db) ∧
    (∀ (services : List Service) (db : List Booking) (user : User)
        (req : CreateReq) (now : Nat) (tries : List (Clock × ℚ)) (newId : Nat)
        (service : Service),
      findService services req.serviceId = some service →
      service.isActive = true → service.isAvailable = true →
      (∀ b ∈ db, b.mechanic = service.mechanic →
        b.scheduledDate = req.scheduledDate → b.status ∉ activeStatuses) →
      findConflicting db service.mechanic req.scheduledDate = none ∧
      createBooking services db user req now tries newId ≠
        .error (.validation "Mechanic is not available at the scheduled time")) := by
  constructor
  · intro services db user req now tries newId service c hserv hact havail hconf
    have hres : createBooking services db user req now tries newId =
        .error (.validation "Mechanic is not available at the scheduled time") := by
      unfold createBooking
      rw [hserv]
      dsimp only
      rw [hact, havail]
      simp only [Bool.and_self, Bool.not_true, Bool.false_eq_true, if_false]
      rw [hconf]
    exact ⟨hres, by unfold bookingsAfterCreate; rw [hres]⟩
  · intro services db user req now tries newId service hserv hact havail hnone
    have hconf : findConflicting db service.mechanic req.scheduledDate = none := by
      unfold findConflicting
      rw [List.find?_eq_none]
      intro x hx hpx
      simp only [Bool.and_eq_true] at hpx
      obtain ⟨⟨h1, h2⟩, h3⟩ := hpx
      exact hnone x hx (by simpa using h1) (by simpa using h2) (by simpa using h3)
    refine ⟨hconf, ?_⟩
    intro heq
    unfold createBooking at heq
    rw [hserv] at heq
    dsimp only at heq
    rw [hact, havail] at heq
    simp only [Bool.and_self, Bool.not_true, Bool.false_eq_true, if_false] at heq
    rw [hconf] at heq
    dsimp only at heq
    cases hgen : genBookingNumber (db.map fun x => x.bookingNumber) (tries.take 3) with
    | error m =>
      rw [hgen] at heq
      dsimp only at heq
      have hm := genBookingNumber_error_msg hgen
      subst hm
      injection heq with h1
      injection h1 with h2
      exact absurd h2 (by decide)
    | ok bn =>
      rw [hgen] at heq
      dsimp only at heq
      rw [if_pos (validateBooking_fresh service req user.id newId bn)] at heq
      exact absurd heq (by simp)

/-- Witness for C4: a confirmed booking of mechanic 20 on the same date
blocks creation; a completed one does not. -/
theorem C4_witness :
    (createBooking [sampleService] sampleDb sampleCustomer sampleReq 3
        [(sampleClock, sampleQ)] 2 =
      .error (.validation "Mechanic is not available at the scheduled time") ∧
     bookingsAfterCreate [sampleService] sampleDb sampleCustomer sampleReq 3
        [(sampleClock, sampleQ)] 2 = sampleDb) ∧
    (findConflicting [sampleDone] 20 100 = none ∧
     createBooking [sampleService] [sampleDone] sampleCustomer sampleReq 3
        [(sampleClock, sampleQ)] 2 ≠
      .error (.validation "Mechanic is not available at the scheduled time")) :=
  ⟨C4_schedule_conflict.1 [sampleService] sampleDb sampleCustomer sampleReq 3
      [(sampleClock, sampleQ)] 2 sampleService sampleBooking rfl rfl rfl rfl,
   C4_schedule_conflict.2 [sampleService] [sampleDone] sampleCustomer sampleReq 3
      [(sampleClock, sampleQ)] 2 sampleService rfl rfl rfl (by decide)⟩

/-- Claim C9: No reachable booking ever has status "resolved": the schema
enum omits it, so although the transition table allows disputed →
resolved, the attempted transition passes the table check and then fails
schema validation at save, leaving the store unchanged. -/
theorem C9_resolved_unreachable :
    (∀ db, Reachable db → ∀ b ∈ db, b.status ≠ "resolved") ∧
    validTransitionsTable "disputed" = some ["resolved"] ∧
    (∀ (db : List Booking) (user : User) (bid : Nat) (note : Option String)
        (now : Nat) (b : Booking),
      findBooking db bid = some b → b.status = "disputed" →
      isParticipantOrAdmin user b = true → b.statusHistory ≠ [] →
      updateBookingStatus db user bid "resolved" note now =
        .error (.validation "Booking validation failed") ∧
      bookingsAfterUpdate db user bid "resolved" note now = db) := by
  refine ⟨?_, rfl, ?_⟩
  · intro db hreach b hb hcontra
    have hv := ((reachableInv hreach).2.2 b hb).1
    have hmem := validateBooking_status_mem hv
    rw [hcontra] at hmem
    exact absurd hmem (by decide)
  · intro db user bid note now b hfind hstat hauth hne
    have hsfalse : ∀ X : Booking, X.status = "resolved" →
        validateBooking (savedDoc X true now) = false := by
      intro X hX
      rw [savedDoc_true]
      apply validateBooking_false_of_status
      rw [pushHistory_status, hX]
      rfl
    have hres : updateBookingStatus db user bid "resolved" note now =
        .error (.validation "Booking validation failed") := by
      unfold updateBookingStatus
      rw [hfind]
      dsimp only
      rw [hauth]
      simp only [Bool.not_true, Bool.false_eq_true, if_false]
      rw [hstat]
      rw [show validTransitionsTable "disputed" = some ["resolved"] from rfl]
      dsimp only
      rw [show (["resolved"] : List String).contains "resolved" = true from rfl]
      simp only [Bool.not_true, Bool.false_eq_true, if_false]
      cases note with
      | none =>
        dsimp only
        unfold saveExisting
        rw [hsfalse _ (by rw [applyStatusEffects_status])]
        rfl
      | some n =>
        dsimp only
        have hemp : b.statusHistory.isEmpty = false := by
          simpa [List.isEmpty_iff] using hne
        rw [hemp]
        simp only [Bool.false_eq_true, if_false]
        unfold saveExisting
        rw [hsfalse _ (by rw [applyStatusEffects_status])]
        rfl
    exact ⟨hres, by unfold bookingsAfterUpdate; rw [hres]⟩

/-- Witness for C9: the empty store is reachable and trivially
resolved-free; a disputed sample booking cannot be moved to "resolved". -/
theorem C9_witness :
    sampleCreated.status ≠ "resolved" ∧
    (updateBookingStatus [{ sampleBooking with status := "disputed" }]
        sampleMechanic 1 "resolved" none 7 =
      .error (.validation "Booking validation failed") ∧
     bookingsAfterUpdate [{ sampleBooking with status := "disputed" }]
        sampleMechanic 1 "resolved" none 7 =
      [{ sampleBooking with status := "disputed" }]) :=
  ⟨C9_resolved_unreachable.1 [sampleCreated] sampleReachable sampleCreated
      (by simp),
   C9_resolved_unreachable.2.2 [{ sampleBooking with status := "disputed" }]
      sampleMechanic 1 none 7 { sampleBooking with status := "disputed" }
      rfl rfl rfl (by decide)⟩

/-- Claim C10: The `updatedBy` stamped on the appended history entry is
derived from the booking, not the requester: the customer for target
status "pending", the mechanic otherwise — in particular any successful
cancellation records the mechanic in the history entry while `cancelledBy`
records the actual requester. -/
theorem C10_updatedBy_derived :
    (∀ (db : List Booking) (user : User) (bid : Nat) (target : String)
        (note : Option String) (now : Nat) (db' : List Booking)
        (b' b : Booking),
      findBooking db bid = some b →
      updateBookingStatus db user bid target note now = .ok (db', b') →
      (b'.statusHistory.getLast?).map HistEntry.updatedBy =
        some (if target == "pending" then b.customer else b.mechanic)) ∧
    (∀ (db : List Booking) (user : User) (bid : Nat) (reason : Option String)
        (now : Nat) (db' : List Booking) (b' b : Booking),
      findBooking db bid = some b →
      cancelBooking db user bid reason now = .ok (db', b') →
      (b'.statusHistory.getLast?).map HistEntry.updatedBy = some b.mechanic ∧
      b'.cancelledBy = some user.id) := by
  constructor
  · intro db user bid target note now db' b' b hfind hok
    obtain ⟨booking, hist2, hfind2, _, _, _, hsave⟩ := updateBookingStatus_ok hok
    have hbb : booking = b := by
      rw [hfind2] at hfind
      exact Option.some.inj hfind
    subst hbb
    obtain ⟨hb'', _, _⟩ := saveExisting_ok hsave
    obtain ⟨hhist, _, _, _⟩ := updated_fields hb''
    rw [hhist, List.getLast?_concat]
    rfl
  · intro db user bid reason now db' b' b hfind hok
    obtain ⟨booking, hfind2, _, _, hsave⟩ := cancelBooking_ok hok
    have hbb : booking = b := by
      rw [hfind2] at hfind
      exact Option.some.inj hfind
    subst hbb
    obtain ⟨hb'', _, _⟩ := saveExisting_ok hsave
    obtain ⟨hhist, _, _, _, _, hcb, _⟩ := cancelled_fields hb''
    rw [hhist, List.getLast?_concat]
    exact ⟨rfl, hcb⟩

/-- The booking persisted by the sample confirmed → in_progress update
without a note. -/
def sampleStarted : Booking :=
  { sampleBooking with
    status := "in_progress"
    statusHistory := [⟨"confirmed", 0, none, 20⟩, ⟨"in_progress", 7, none, 20⟩]
    actualStartTime := some 7 }

lemma sampleUpdate_eval :
    updateBookingStatus sampleDb sampleMechanic 1 "in_progress" none 7 =
      .ok ([sampleStarted], sampleStarted) := rfl

/-- The booking persisted when the customer cancels the sample booking. -/
def sampleCancelledDoc : Booking :=
  { sampleBooking with
    status := "cancelled"
    statusHistory := [⟨"confirmed", 0, none, 20⟩, ⟨"cancelled", 9, none, 20⟩]
    cancellationReason := some "late"
    cancelledBy := some 10
    cancelledAt := some 9 }

lemma sampleCancel_eval :
    cancelBooking sampleDb sampleCustomer 1 (some "late") 9 =
      .ok ([sampleCancelledDoc], sampleCancelledDoc) := rfl

/-- Witness for C10: on the started booking the history entry says the
mechanic (20) updated it; on the customer-driven cancellation the history
entry still says the mechanic (20) while `cancelledBy` records the
customer (10). -/
theorem C10_witness :
    (sampleStarted.statusHistory.getLast?).map HistEntry.updatedBy = some 20 ∧
    ((sampleCancelledDoc.statusHistory.getLast?).map HistEntry.updatedBy =
        some 20 ∧
      sampleCancelledDoc.cancelledBy = some 10) :=
  ⟨C10_updatedBy_derived.1 sampleDb sampleMechanic 1 "in_progress" none 7
      [sampleStarted] sampleStarted sampleBooking rfl sampleUpdate_eval,
   C10_updatedBy_derived.2 sampleDb sampleCustomer 1 (some "late") 9
      [sampleCancelledDoc] sampleCancelledDoc sampleBooking rfl
      sampleCancel_eval⟩

/-- Claim C3 is false as stated: on the sample store, a successful
confirmed → in_progress transition with note "arrived" appends exactly one
entry, but the note is stored on the older "confirmed" entry, not on the
newly appended "in_progress" entry — whose note is `none`. -/
theorem C3_counterexample :
    (updateBookingStatus sampleDb sampleMechanic 1 "in_progress"
        (some "arrived") 7).map
      (fun r => r.2.statusHistory.map (fun e => (e.status, e.note))) =
    .ok [("confirmed", some "arrived"), ("in_progress", none)] := rfl

/-- Claim C3, amended: Every successful status update carrying a note
appends exactly one history entry; the note is stored on the entry that
was last *before* the transition (the previous status's entry), while the
newly appended entry — the one whose status equals the new status —
carries no note. -/
theorem C3_note_on_previous_entry (db : List Booking) (user : User)
    (bid : Nat) (target : String) (n : String) (now : Nat)
    (db' : List Booking) (b' b : Booking)
    (hfind : findBooking db bid = some b)
    (hok : updateBookingStatus db user bid target (some n) now = .ok (db', b')) :
    b'.statusHistory.length = b.statusHistory.length + 1 ∧
    b'.statusHistory.getLast? = some ⟨target, now, none,
      if target == "pending" then b.customer else b.mechanic⟩ ∧
    b'.statusHistory.dropLast = setLastNote b.statusHistory n ∧
    (setLastNote b.statusHistory n).getLast? =
      (b.statusHistory.getLast?).map (fun e => { e with note := some n }) := by
  obtain ⟨booking, hist2, hfind2, _, _, hhist2, hsave⟩ := updateBookingStatus_ok hok
  have hbb : booking = b := by
    rw [hfind2] at hfind
    exact Option.some.inj hfind
  subst hbb
  obtain ⟨hb'', _, _⟩ := saveExisting_ok hsave
  obtain ⟨hhist, _, _, _⟩ := updated_fields hb''
  rcases hhist2 with ⟨hnone, _⟩ | ⟨n', hsome, hne, h2⟩
  · exact absurd hnone (by simp)
  · have hn : n' = n := by
      injection hsome with h
      exact h.symm
    subst hn
    subst h2
    refine ⟨?_, ?_, ?_, ?_⟩
    · rw [hhist, List.length_append, setLastNote_length]
      rfl
    · rw [hhist, List.getLast?_concat]
    · rw [hhist, List.dropLast_concat]
    · exact setLastNote_getLast? _ _ hne

/-- The booking persisted by the sample noted update: the note sits on the
old "confirmed" entry. -/
def sampleStartedNoted : Booking :=
  { sampleBooking with
    status := "in_progress"
    statusHistory := [⟨"confirmed", 0, some "arrived", 20⟩,
      ⟨"in_progress", 7, none, 20⟩]
    actualStartTime := some 7 }

lemma sampleUpdateNoted_eval :
    updateBookingStatus sampleDb sampleMechanic 1 "in_progress"
      (some "arrived") 7 = .ok ([sampleStartedNoted], sampleStartedNoted) := rfl

/-- Witness for the amended C3 on the sample store. -/
theorem C3_witness :
    sampleStartedNoted.statusHistory.length =
      sampleBooking.statusHistory.length + 1 ∧
    sampleStartedNoted.statusHistory.getLast? =
      some ⟨"in_progress", 7, none, 20⟩ ∧
    sampleStartedNoted.statusHistory.dropLast =
      setLastNote sampleBooking.statusHistory "arrived" ∧
    (setLastNote sampleBooking.statusHistory "arrived").getLast? =
      (sampleBooking.statusHistory.getLast?).map
        (fun e => { e with note := some "arrived" }) :=
  C3_note_on_previous_entry sampleDb sampleMechanic 1 "in_progress" "arrived" 7
    [sampleStartedNoted] sampleStartedNoted sampleBooking rfl
    sampleUpdateNoted_eval

/-- Claim C1 is false as stated: the concrete creation run persists a
booking whose `statusHistory` is empty, so there is no first entry
carrying the initial status and the last entry's status is not the
booking's current status.  The controller passes no status to
`Booking.create`; the schema default `confirmed` is applied as a default,
not a modification, so `isModified('status')` is false in the
`pre('save')` hook and nothing is pushed at creation. -/
theorem C1_counterexample :
    createBooking [sampleService] [] sampleCustomer sampleReq 3
      [(sampleClock, sampleQ)] 1 = .ok ([sampleCreated], sampleCreated) ∧
    Reachable [sampleCreated] ∧
    sampleCreated.status = "confirmed" ∧
    sampleCreated.statusHistory = [] ∧
    ¬lastStatus sampleCreated.statusHistory = some sampleCreated.status :=
  ⟨rfl, sampleReachable, rfl, rfl, by decide⟩

/-- Claim C1, amended: a freshly created booking persists with status
`confirmed` and an **empty** `statusHistory` (the hook pushes nothing at
creation, the defaulted status not being a modified path); on every
reachable store each booking's `statusHistory` is either empty or ends
with an entry carrying the booking's current status; every handled
request only extends the note-erased history skeleton of each surviving
booking; and every persisted status change (update or direct
cancellation) leaves the last entry's status equal to the new current
status. -/
theorem C1_history_invariant :
    (∀ db, Reachable db → ∀ b ∈ db,
      b.statusHistory = [] ∨ lastStatus b.statusHistory = some b.status) ∧
    (∀ db db', Reachable db → Step db db' → HistExtends db db') ∧
    (∀ (services : List Service) (db : List Booking) (user : User)
        (req : CreateReq) (now : Nat) (tries : List (Clock × ℚ)) (newId : Nat)
        (db' : List Booking) (b : Booking),
      createBooking services db user req now tries newId = .ok (db', b) →
      b.statusHistory = [] ∧ b.status = "confirmed") ∧
    (∀ (db : List Booking) (user : User) (bid : Nat) (target : String)
        (note : Option String) (now : Nat) (db' : List Booking) (b' : Booking),
      updateBookingStatus db user bid target note now = .ok (db', b') →
      lastStatus b'.statusHistory = some b'.status) ∧
    (∀ (db : List Booking) (user : User) (bid : Nat) (reason : Option String)
        (now : Nat) (db' : List Booking) (b' : Booking),
      cancelBooking db user bid reason now = .ok (db', b') →
      lastStatus b'.statusHistory = some b'.status) := by
  refine ⟨?_, ?_, ?_, ?_, ?_⟩
  · intro db hreach b hb
    exact ((reachableInv hreach).2.2 b hb).2
  · intro db db' hreach hstep
    exact stepHistExtends (reachableInv hreach) hstep
  · intro services db user req now tries newId db' b hok
    obtain ⟨service, bn, _, _, _, _, _, hb, _⟩ := createBooking_ok hok
    subst hb
    exact ⟨rfl, rfl⟩
  · intro db user bid target note now db' b' hok
    obtain ⟨booking, hist2, _, _, _, _, hsave⟩ := updateBookingStatus_ok hok
    exact savePushed_last hsave
  · intro db user bid reason now db' b' hok
    obtain ⟨booking, _, _, _, hsave⟩ := cancelBooking_ok hok
    exact savePushed_last hsave

/-- Witness for the amended C1: the concrete created booking has empty
history and status `confirmed`; the creation step only extends history
skeletons; the concrete update and cancellation runs leave the last entry
carrying the new status. -/
theorem C1_witness :
    (sampleCreated.statusHistory = [] ∨
      lastStatus sampleCreated.statusHistory = some sampleCreated.status) ∧
    HistExtends [] [sampleCreated] ∧
    (sampleCreated.statusHistory = [] ∧ sampleCreated.status = "confirmed") ∧
    lastStatus sampleStarted.statusHistory = some sampleStarted.status ∧
    lastStatus sampleCancelledDoc.statusHistory =
      some sampleCancelledDoc.status :=
  ⟨C1_history_invariant.1 [sampleCreated] sampleReachable sampleCreated
      (by simp),
   C1_history_invariant.2.1 [] [sampleCreated] Reachable.nil
      (Step.create (by simp) sampleCreate_eval),
   C1_history_invariant.2.2.1 [sampleService] [] sampleCustomer sampleReq 3
      [(sampleClock, sampleQ)] 1 [sampleCreated] sampleCreated
      sampleCreate_eval,
   C1_history_invariant.2.2.2.1 sampleDb sampleMechanic 1 "in_progress" none 7
      [sampleStarted] sampleStarted sampleUpdate_eval,
   C1_history_invariant.2.2.2.2 sampleDb sampleCustomer 1 (some "late") 9
      [sampleCancelledDoc] sampleCancelledDoc sampleCancel_eval⟩

/-- Claim C6: Booking-number generation examines at most 3 candidates (the
caller feeds `tries.take 3` to the loop), re-checking each against the
existing numbers: if all (up to) 3 candidates collide it fails with the
explicit retry-exhausted error; a successful generation returns one of the
candidates and it does not collide with any existing number; every
candidate has the shape `MB-<year><month><day>-<hour><minute><second>-<r>`
with a 4-digit random part `1000 ≤ r ≤ 9999` (for a `Math.random()` value
in `[0, 1)`); and the booking numbers of every reachable store are
pairwise distinct. -/
theorem C6_bookingNumber :
    (∀ (existing : List String) (tries : List (Clock × ℚ)),
      (∀ t ∈ tries.take 3, mkBookingNumber t.1 t.2 ∈ existing) →
      genBookingNumber existing (tries.take 3) =
        .error "Could not generate a unique booking number. Please try again.") ∧
    (∀ (existing : List String) (tries : List (Clock × ℚ)) (bn : String),
      genBookingNumber existing (tries.take 3) = .ok bn →
      bn ∉ existing ∧ ∃ t ∈ tries.take 3, bn = mkBookingNumber t.1 t.2) ∧
    (∀ (c : Clock) (q : ℚ), 0 ≤ q → q < 1 →
      ∃ r, 1000 ≤ r ∧ r ≤ 9999 ∧
        mkBookingNumber c q = "MB-" ++ toString c.year ++ pad2 c.month
          ++ pad2 c.day ++ "-" ++ pad2 c.hour ++ pad2 c.minute
          ++ pad2 c.second ++ "-" ++ toString r) ∧
    (∀ db, Reachable db → (db.map Booking.bookingNumber).Nodup) := by
  refine ⟨?_, ?_, ?_, ?_⟩
  · intro existing tries h
    exact genBookingNumber_exhausted h
  · intro existing tries bn h
    exact genBookingNumber_ok h
  · intro c q h0 h1
    obtain ⟨hlo, hhi⟩ := randomPart_bounds h0 h1
    exact ⟨randomPart q, hlo, hhi, rfl⟩
  · intro db hreach
    exact (reachableInv hreach).2.1

/-- Witness for C6: three colliding attempts exhaust the loop; generation
against an empty collection succeeds with a fresh number; the sample
clock/random pair produces a well-formed number; the sample reachable
store has distinct numbers. -/
theorem C6_witness :
    genBookingNumber [mkBookingNumber sampleClock sampleQ]
        ([(sampleClock, sampleQ), (sampleClock, sampleQ), (sampleClock, sampleQ),
          (sampleClock, sampleQ)].take 3) =
      .error "Could not generate a unique booking number. Please try again." ∧
    (mkBookingNumber sampleClock sampleQ ∉ ([] : List String) ∧
      ∃ t ∈ [(sampleClock, sampleQ)].take 3,
        mkBookingNumber sampleClock sampleQ = mkBookingNumber t.1 t.2) ∧
    (∃ r, 1000 ≤ r ∧ r ≤ 9999 ∧
      mkBookingNumber sampleClock sampleQ = "MB-" ++ toString sampleClock.year
        ++ pad2 sampleClock.month ++ pad2 sampleClock.day ++ "-"
        ++ pad2 sampleClock.hour ++ pad2 sampleClock.minute
        ++ pad2 sampleClock.second ++ "-" ++ toString r) ∧
    ([sampleCreated].map Booking.bookingNumber).Nodup :=
  ⟨C6_bookingNumber.1 [mkBookingNumber sampleClock sampleQ]
      [(sampleClock, sampleQ), (sampleClock, sampleQ), (sampleClock, sampleQ),
        (sampleClock, sampleQ)]
      (by
        intro t ht
        simp only [List.take_succ_cons, List.take_zero, List.mem_cons,
          List.not_mem_nil, or_false] at ht
        rcases ht with h | h | h <;> subst h <;> simp),
   C6_bookingNumber.2.1 [] [(sampleClock, sampleQ)]
      (mkBookingNumber sampleClock sampleQ) rfl,
   C6_bookingNumber.2.2.1 sampleClock sampleQ (by norm_num [sampleQ])
      (by norm_num [sampleQ]),
   C6_bookingNumber.2.2.2 [sampleCreated] sampleReachable⟩

end MechanicBD
